import Mathlib

/-!
Verification development for the itemSTT voice-capture and product-matching
core.

This file shallowly embeds the parts of the TypeScript source that the
specification's testable properties talk about:

* `src/services/localAiService.ts` — `extractQuantity`, `matchProductLocally`
  (the local `ProductScorer`) and the ModelScope remote-matcher adapter;
* `src/services/geminiService.ts` — the Gemini remote-matcher adapter;
* `src/components/AddItemModal.tsx` — `processMatchResult` and
  `handleTranscript` (the `MatchResolver`);
* `src/components/VoiceRecorder.tsx` — the capture-session state machine
  (`startLogic`, `stopLogic`, `finalizeSession`, `handleStopClick` and the
  engine callbacks `onresult` / `onend`).

JavaScript string primitives (`includes`, `startsWith`, `substring`, `split`,
`toLowerCase`, `trim`) are embedded as character-list functions; on the
basic-multilingual-plane strings used throughout this code base the
character-based semantics coincides with JavaScript's UTF-16 semantics.
External effects (the speech engine, timers, `fetch`, `JSON.parse`) are
modelled as explicit events and outcome parameters, so every definition is
executable and every theorem is about the code's own control flow.
-/

/-! ## JavaScript string primitives -/

/-- Embedding of JavaScript `String.prototype.toLowerCase` restricted to its
effect on ASCII letters (it is the identity on the CJK characters appearing in
this repository's data). -/
def jsFoldChar (c : Char) : Char :=
  if 'A' ≤ c ∧ c ≤ 'Z' then Char.ofNat (c.toNat + 32) else c

/-- Case-fold a whole string, character by character. -/
def jsToLower (s : String) : String :=
  String.mk (s.toList.map jsFoldChar)

/-- Boolean substring test on character lists: `infB sub l` is true exactly
when `sub` occurs contiguously inside `l` (JavaScript `l.includes(sub)`,
including the `"".includes("")` = true corner). -/
def infB (sub : List Char) : List Char → Bool
  | [] => sub.isEmpty
  | x :: xs => sub.isPrefixOf (x :: xs) || infB sub xs

/-- Embedding of JavaScript `s.includes(sub)`. -/
def jsIncludes (s sub : String) : Bool :=
  infB sub.toList s.toList

/-- Embedding of JavaScript `s.startsWith(pre)`. -/
def jsStartsWith (s pre : String) : Bool :=
  pre.toList.isPrefixOf s.toList

/-- Embedding of JavaScript `s.substring(a, b)` (only well-ordered in-range
uses occur in the source). -/
def jsSubstring (s : String) (a b : Nat) : String :=
  String.mk ((s.toList.drop a).take (b - a))

/-- Characters the source's regular expression class `[A-Z0-9]` matches. -/
def isVariantMarker (c : Char) : Bool :=
  ('A' ≤ c ∧ c ≤ 'Z') || ('0' ≤ c ∧ c ≤ '9')

/-- Embedding of `s.split(/[A-Z0-9]/)[0]`: the portion of `s` before the
first character matched by the class (the whole of `s` when none matches). -/
def jsSplitHead (s : String) : String :=
  String.mk (s.toList.takeWhile (fun c => !isVariantMarker c))

/-- Whitespace recognised by the embedded `trim`. -/
def jsIsWs (c : Char) : Bool :=
  c == ' ' || c == '\t' || c == '\n' || c == '\r' || c == '\x0b' || c == '\x0c'

/-- Embedding of JavaScript `s.trim()`. -/
def jsTrim (s : String) : String :=
  String.mk (((s.toList.dropWhile jsIsWs).reverse.dropWhile jsIsWs).reverse)

/-- ASCII decimal digit test (the regular expression class `\d`). -/
def jsIsDigit (c : Char) : Bool :=
  '0' ≤ c ∧ c ≤ '9'

/-! ## Data model (`src/types.ts`) -/

/-- Catalog entry, from `src/types.ts`. -/
structure Product where
  id : String
  name : String
  category : String
  unitLabel : String
  price : Int
deriving DecidableEq, Repr

/-- Result shape shared by every matcher, from `src/types.ts`.
`detectedQuantity` is an `Int` because remote backends may return any
JavaScript number there. -/
structure MatchResult where
  matchedProductId : Option String
  detectedQuantity : Option Int
  suggestions : List String
deriving DecidableEq, Repr

/-- The empty result every adapter returns for a blank transcript. -/
def emptyMatchResult : MatchResult :=
  { matchedProductId := none, detectedQuantity := none, suggestions := [] }

/-! ## Local scorer (`src/services/localAiService.ts`) -/

/-- The `CHINESE_NUMBERS` dictionary, in its source insertion order (the
order `Object.entries` iterates). -/
def CHINESE_NUMBERS : List (String × Nat) :=
  [("一", 1), ("二", 2), ("两", 2), ("三", 3), ("四", 4), ("五", 5),
   ("六", 6), ("七", 7), ("八", 8), ("九", 9), ("十", 10)]

/-- Value of a digit run, as `parseInt` computes it on an all-digit string. -/
def digitsVal (l : List Char) : Nat :=
  l.foldl (fun n c => 10 * n + (c.toNat - '0'.toNat)) 0

/-- First maximal run of ASCII digits in `t` — the match of `/(\d+)/`. -/
def firstDigitRun (t : String) : Option (List Char) :=
  let rest := t.toList.dropWhile (fun c => !jsIsDigit c)
  if rest.isEmpty then none else some (rest.takeWhile jsIsDigit)

/-- Embedding of `extractQuantity` from `localAiService.ts`: a literal digit
scan first, else the first entry of `CHINESE_NUMBERS` (in dictionary order)
whose key occurs anywhere in the text. -/
def extractQuantity (text : String) : Option Nat :=
  match firstDigitRun text with
  | some run => some (digitsVal run)
  | none => (CHINESE_NUMBERS.find? (fun kv => jsIncludes text kv.1)).map (·.2)

/-- Per-product additive score computed inside `matchProductLocally`,
embedded as the same sequence of guarded `score +=` updates. -/
def productScore (normalizedText : String) (p : Product) : Nat :=
  let pName := jsToLower p.name
  let pId := jsToLower p.id
  let score : Nat := 0
  let score := if jsIncludes normalizedText pId then score + 100 else score
  let score := if jsIncludes normalizedText pName then score + 50 else score
  let score :=
    if 2 < pName.length ∧ jsIncludes normalizedText (jsSubstring pName 0 2)
    then score + 5 else score
  let score :=
    if jsStartsWith pName normalizedText
        ∨ jsIncludes normalizedText (jsSplitHead pName)
    then score + 10 else score
  score

/-- Scored candidate, internal to the scorer. -/
structure ScoredCandidate where
  product : Product
  score : Nat
deriving DecidableEq, Repr

/-- Stable insertion of a candidate into a descending-sorted list: the new
element goes behind every element whose score is at least as large, which is
exactly where the stable JavaScript sort with comparator
`(a, b) => b.score - a.score` keeps it. -/
def insertDesc (c : ScoredCandidate) : List ScoredCandidate →
    List ScoredCandidate
  | [] => [c]
  | d :: ds => if d.score < c.score then c :: d :: ds else d :: insertDesc c ds

/-- Stable descending sort by score, the observable behaviour of
`candidates.sort((a, b) => b.score - a.score)` in `matchProductLocally`. -/
def jsSortDesc (l : List ScoredCandidate) : List ScoredCandidate :=
  l.foldr insertDesc []

/-- Embedding of `matchProductLocally`: score every product, stable-sort
descending by score (the JavaScript comparator `b.score - a.score`), keep the
positive scores, cap at five suggestions, and assert a confident match only
when the best score reaches 40. -/
def matchProductLocally (transcript : String) (products : List Product) :
    MatchResult :=
  let normalizedText := jsToLower transcript
  let quantity := extractQuantity normalizedText
  let candidates := products.map
    (fun p => ScoredCandidate.mk p (productScore normalizedText p))
  let sorted := jsSortDesc candidates
  let suggestions :=
    ((sorted.filter (fun c => decide (0 < c.score))).take 5).map
      (fun c => c.product.id)
  let matchedProductId :=
    match sorted.head? with
    | some best => if 40 ≤ best.score then some best.product.id else none
    | none => none
  { matchedProductId := matchedProductId
    detectedQuantity := quantity.map Int.ofNat
    suggestions := suggestions }

/-! ## Remote matcher adapters
(`src/services/geminiService.ts` and the ModelScope adapter in
`src/services/localAiService.ts`)

The network and the backend's reply are external; an adapter call is embedded
as a function of the transcript, the catalog and a `RemoteOutcome` describing
what the HTTP layer and `JSON.parse` did.  `RemoteOutcome.ok (some r)` means
the response body survived the cleanup steps and decoded to `r` (with the
adapter's `suggestions`-defaulting already applied); `RemoteOutcome.ok none`
means the cleaned body failed to parse. -/

/-- Outcome of one remote HTTP call as seen by an adapter. -/
inductive RemoteOutcome
  | netFail
  | httpError (status : Nat)
  | ok (parsed : Option MatchResult)
deriving DecidableEq, Repr

/-- Error categories an adapter can propagate. -/
inductive RemoteError
  | auth
  | network
  | parse
  | apiStatus (status : Nat)
deriving DecidableEq, Repr

/-- Embedding of `matchProductFromTranscript` from the ModelScope adapter in
`localAiService.ts`: blank transcripts short-circuit to the empty result;
otherwise a fetch rejection is rethrown, a 401 status throws the dedicated
API-key message, any other non-ok status throws the generic API error, an
unparseable body throws the parse-failure message, and a parsed body is
returned unchanged. -/
def modelScopeMatch (transcript : String) (products : List Product)
    (outcome : RemoteOutcome) : Except RemoteError MatchResult :=
  let _ := products
  if jsTrim transcript = "" then .ok emptyMatchResult
  else
    match outcome with
    | .netFail => .error .network
    | .httpError status =>
        if status = 401 then .error .auth else .error (.apiStatus status)
    | .ok none => .error .parse
    | .ok (some r) => .ok r

/-- Embedding of `matchProductFromTranscript` from `geminiService.ts`: blank
transcripts short-circuit to the empty result; a successfully parsed body is
returned unchanged; every failure (network, missing text, parse error) is
caught by the adapter's own `catch` and turned into the empty success-shaped
result. -/
def geminiMatch (transcript : String) (products : List Product)
    (outcome : RemoteOutcome) : Except RemoteError MatchResult :=
  let _ := products
  if jsTrim transcript = "" then .ok emptyMatchResult
  else
    match outcome with
    | .ok (some r) => .ok r
    | _ => .ok emptyMatchResult

/-! ## Match resolver (`src/components/AddItemModal.tsx`) -/

/-- The modal's step, from the `useState` union in `AddItemModal.tsx`. -/
inductive ModalStep
  | RECORD
  | SELECT_PRODUCT
  | CONFIRM_QTY
deriving DecidableEq, Repr

/-- Observable modal state after a resolution call: the pieces of
`AddItemModal` component state that `handleTranscript` and
`processMatchResult` write. -/
structure ModalState where
  step : ModalStep
  transcript : String
  candidates : List Product
  selectedProduct : Option Product
  quantity : Int
  usedOfflineMatch : Bool
deriving DecidableEq, Repr

/-- Modal state right after the open-reset effect in `AddItemModal.tsx`. -/
def initialModalState : ModalState :=
  { step := .RECORD
    transcript := ""
    candidates := []
    selectedProduct := none
    quantity := 1
    usedOfflineMatch := false }

/-- JavaScript truthiness of `matchedProductId` (a present, non-empty id). -/
def truthyId : Option String → Option String
  | some pid => if pid = "" then none else some pid
  | none => none

/-- Embedding of `processMatchResult`: a truthy `matchedProductId` that is
found in the catalog selects that product and jumps to quantity confirmation;
otherwise non-empty suggestions are filtered against the catalog; otherwise
the whole catalog becomes the candidate list.  A truthy `detectedQuantity`
(non-null, non-zero) overwrites the prefilled quantity. -/
def processMatchResult (products : List Product) (m : MatchResult)
    (st : ModalState) : ModalState :=
  let withQty (s : ModalState) : ModalState :=
    match m.detectedQuantity with
    | some q => if q = 0 then s else { s with quantity := q }
    | none => s
  let suggestionsBranch : ModalState :=
    if m.suggestions ≠ [] then
      withQty { st with
        candidates := products.filter (fun p => m.suggestions.contains p.id)
        step := .SELECT_PRODUCT }
    else
      { st with candidates := products, step := .SELECT_PRODUCT }
  match truthyId m.matchedProductId with
  | some pid =>
      match products.find? (fun p => p.id = pid) with
      | some product =>
          withQty { st with
            selectedProduct := some product
            step := .CONFIRM_QTY }
      | none => suggestionsBranch
  | none => suggestionsBranch

/-- Embedding of `handleTranscript`: online, the awaited remote call either
returns a `MatchResult` (used directly, offline flag cleared) or throws (any
thrown error is caught and the local scorer's result is used with the offline
flag set); offline, the local scorer is used directly. -/
def handleTranscript (online : Bool)
    (remote : Except RemoteError MatchResult) (text : String)
    (products : List Product) (st : ModalState) : ModalState :=
  let st := { st with transcript := text }
  if online then
    match remote with
    | .ok m => processMatchResult products m { st with usedOfflineMatch := false }
    | .error _ =>
        processMatchResult products (matchProductLocally text products)
          { st with usedOfflineMatch := true }
  else
    processMatchResult products (matchProductLocally text products)
      { st with usedOfflineMatch := true }

/-- The match result `handleTranscript` actually consumes, given the online
flag and the remote call's outcome. -/
def usedMatch (online : Bool) (remote : Except RemoteError MatchResult)
    (text : String) (products : List Product) : MatchResult :=
  match online, remote with
  | true, .ok m => m
  | true, .error _ => matchProductLocally text products
  | false, _ => matchProductLocally text products

/-- Well-formedness of the modal state a resolution call produces: the flow
has left the recording step, every candidate comes from the catalog, and a
jump to quantity confirmation carries a catalog product. -/
def ModalWellFormed (products : List Product) (st : ModalState) : Prop :=
  st.step ≠ .RECORD ∧
  (∀ p ∈ st.candidates, p ∈ products) ∧
  (st.step = .CONFIRM_QTY → ∃ p, st.selectedProduct = some p ∧ p ∈ products)

/-! ## Capture session state machine (`src/components/VoiceRecorder.tsx`)

The component keeps its session state in refs; the engine and the two
timeouts drive it through callbacks.  The state is embedded as a record and
each callback as one case of a step function over timed events.  Timer
handles become optional expiry instants: arming a timeout stores its expiry,
clearing it stores `none`.  `emitted` records the argument of the one
`onTranscript` call `finalizeSession` makes (the transcript handed to the
caller). -/

/-- Session state: the refs of `VoiceRecorder` plus the `isListening` flag
and the emitted transcript. -/
structure SessionState where
  sessionActive : Bool
  manuallyStopped : Bool
  accumulatedText : String
  currentChunkText : String
  deadlineAt : Option Nat
  restartAt : Option Nat
  listening : Bool
  emitted : Option String
deriving DecidableEq, Repr

/-- Events the handlers in `VoiceRecorder.tsx` react to.  `result s` is the
engine's `onresult` with cumulative sub-attempt text `s`; `engineEnd` is
`onend`; `stopClick` is `handleStopClick` (user tap or the deadline callback,
which is the same function); `deadlineFire` is the hard 15-second timeout
firing; `restartFire` is the 100 ms restart timeout firing. -/
inductive Ev
  | result (s : String)
  | engineEnd
  | stopClick
  | deadlineFire
  | restartFire
deriving DecidableEq, Repr

/-- Embedding of `finalizeSession`: leave the listening UI state and emit the
trimmed total text when it is non-empty. -/
def finalizeSession (s : SessionState) : SessionState :=
  let cleanText := jsTrim (s.accumulatedText ++ s.currentChunkText)
  { s with
    listening := false
    emitted := if cleanText = "" then s.emitted else some cleanText }

/-- Embedding of `stopLogic`: clear every timer, deactivate the session and
ask the engine to stop (the engine answers with a later `engineEnd`). -/
def stopLogic (s : SessionState) : SessionState :=
  { s with
    deadlineAt := none
    restartAt := none
    sessionActive := false }

/-- Embedding of `handleStopClick`: set the manual-stop flag, then
`stopLogic`. -/
def handleStopClick (s : SessionState) : SessionState :=
  stopLogic { s with manuallyStopped := true }

/-- One handler invocation at time `t`.  `onend` while the session is active
and not manually stopped commits the in-flight chunk and schedules a restart
100 ms out; otherwise it finalizes.  The deadline callback is
`handleStopClick`.  The restart callback only pokes the engine (no session
state outside its own timer handle changes). -/
def step (s : SessionState) (t : Nat) : Ev → SessionState
  | .result txt => { s with currentChunkText := txt }
  | .engineEnd =>
      if s.sessionActive ∧ ¬s.manuallyStopped then
        { s with
          accumulatedText := s.accumulatedText ++ s.currentChunkText
          currentChunkText := ""
          restartAt := some (t + 100) }
      else
        finalizeSession s
  | .stopClick => handleStopClick s
  | .deadlineFire => handleStopClick s
  | .restartFire => { s with restartAt := none }

/-- Run a list of timed events through the handlers. -/
def runT (s : SessionState) (es : List (Nat × Ev)) : SessionState :=
  es.foldl (fun st te => step st te.1 te.2) s

/-- Embedding of `startLogic` invoked at time `now` with hard-stop duration
`dur` (15000 ms in the source): reset every accumulator and flag and arm the
deadline. -/
def startLogic (now dur : Nat) (s : SessionState) : SessionState :=
  { s with
    listening := true
    sessionActive := true
    manuallyStopped := false
    accumulatedText := ""
    currentChunkText := ""
    deadlineAt := some (now + dur)
    restartAt := none }

/-- A fresh component, before any session. -/
def idleSession : SessionState :=
  { sessionActive := false
    manuallyStopped := false
    accumulatedText := ""
    currentChunkText := ""
    deadlineAt := none
    restartAt := none
    listening := false
    emitted := none }

/-- State right after `startLogic` at time 0 with duration `dur`. -/
def startState (dur : Nat) : SessionState :=
  startLogic 0 dur idleSession

/-- Validity of a timed event list from state `s` at time `now`: event times
are monotone, no event may be scheduled past an armed deadline (an armed
timeout fires no later than its expiry in the single-threaded event loop),
and `deadlineFire` happens exactly at the armed expiry. -/
def validB (s : SessionState) (now : Nat) : List (Nat × Ev) → Bool
  | [] => true
  | (t, e) :: es =>
      decide (now ≤ t) &&
      (match s.deadlineAt with
        | some d => decide (t ≤ d)
        | none => true) &&
      (match e with
        | .deadlineFire => s.deadlineAt == some t
        | _ => true) &&
      validB (step s t e) t es

/-- Last cumulative text a sub-attempt reported (empty when it reported
nothing). -/
def lastStr (l : List String) : String :=
  l.getLastD ""

/-- Trace of a session whose engine sub-attempts all end within the deadline:
each non-final sub-attempt delivers its `onresult` reports and then ends
(auto-restart); after the last sub-attempt's reports the stop arrives
(user tap or deadline — the same handler) and the engine then ends.  Event
times do not influence any text field, so they are fixed at 0. -/
def mkTrace : List (List String) → List (Nat × Ev)
  | [] => [(0, .stopClick), (0, .engineEnd)]
  | sub :: rest =>
      sub.map (fun r => (0, Ev.result r)) ++
        match rest with
        | [] => [(0, .stopClick), (0, .engineEnd)]
        | _ => (0, Ev.engineEnd) :: mkTrace rest

/-- Concatenation, in order, of each sub-attempt's last reported cumulative
text. -/
def concatLasts (subs : List (List String)) : String :=
  subs.foldl (fun acc sub => acc ++ lastStr sub) ""

/-! ## Bridging lemmas between the Boolean embeddings and library
predicates -/

/-- The Boolean substring test agrees with `List.IsInfix`. -/
theorem infB_iff (sub l : List Char) : infB sub l = true ↔ sub <:+: l := by
  induction l with
  | nil =>
      simp [infB, List.isEmpty_iff, List.infix_nil]
  | cons x xs ih =>
      simp [infB, List.infix_cons_iff, List.isPrefixOf_iff_prefix, ih]

/-- The embedded `includes` agrees with `List.IsInfix` on the character
lists. -/
theorem jsIncludes_iff (s sub : String) :
    jsIncludes s sub = true ↔ sub.toList <:+: s.toList :=
  infB_iff sub.toList s.toList

/-- The embedded `startsWith` agrees with `List.IsPrefix` on the character
lists. -/
theorem jsStartsWith_iff (s pre : String) :
    jsStartsWith s pre = true ↔ pre.toList <+: s.toList :=
  List.isPrefixOf_iff_prefix

/-- Every string `includes` the empty string, as in JavaScript. -/
theorem jsIncludes_empty (s : String) : jsIncludes s "" = true := by
  simp [jsIncludes_iff]

/-! ## Claim C5 — matched product versus head of suggestions -/

/-- Head shape of the suggestion construction in `matchProductLocally`: when
the confident-match rule accepts the head of the sorted candidate list, that
head also survives the positive-score filter and the cap, so its id leads the
suggestions. -/
theorem sorted_head_leads_suggestions (L : List ScoredCandidate) (pid : String)
    (hm : (match L.head? with
            | some best =>
                if 40 ≤ best.score then some best.product.id else none
            | none => none) = some pid) :
    (((L.filter (fun c => decide (0 < c.score))).take 5).map
        (fun c => c.product.id)).head? = some pid := by
  cases L with
  | nil => simp at hm
  | cons c rest =>
      simp only [List.head?_cons] at hm
      by_cases h40 : 40 ≤ c.score
      · have hpid : c.product.id = pid := by
          simpa [h40] using hm
        have hpos : (0 : Nat) < c.score := by omega
        simp [List.filter_cons, hpos, hpid]
      · simp [h40] at hm

/-- Claim C5 (amended, local-scorer part): every `MatchResult` the local
scorer produces has its confident match, when present, as the first element
of `suggestions`. -/
theorem local_match_head_invariant (t : String) (ps : List Product)
    (pid : String)
    (h : (matchProductLocally t ps).matchedProductId = some pid) :
    (matchProductLocally t ps).suggestions.head? = some pid := by
  simp only [matchProductLocally] at h ⊢
  exact sorted_head_leads_suggestions _ pid h

/-- Witness for `local_match_head_invariant`: the catalog item 护膝 is
confidently matched from the transcript 护膝, and indeed leads the
suggestions. -/
theorem local_match_head_invariant_witness :
    (matchProductLocally "护膝"
        [Product.mk "hx1" "护膝" "护具" "个" 1]).suggestions.head? =
      some "hx1" :=
  local_match_head_invariant "护膝" [Product.mk "hx1" "护膝" "护具" "个" 1]
    "hx1" (by decide)

/-- Counterexample for claim C5 as frozen: the Gemini remote adapter returns
a parsed backend reply unchanged, so the pipeline can produce a `MatchResult`
whose `matchedProductId` is not the head of `suggestions` (here the backend
names product A but suggests only B). -/
theorem remote_match_head_invariant_cex :
    geminiMatch "狗套" [Product.mk "A" "狗套S" "护具" "个" 1]
        (RemoteOutcome.ok (some (MatchResult.mk (some "A") none ["B"]))) =
      Except.ok (MatchResult.mk (some "A") none ["B"]) ∧
    (MatchResult.mk (some "A") none ["B"]).suggestions.head? ≠ some "A" := by
  exact ⟨rfl, by decide⟩

/-! ## Properties of the embedded stable sort -/

/-- Inserting into the sorted list is a permutation of consing. -/
theorem insertDesc_perm (c : ScoredCandidate) (l : List ScoredCandidate) :
    List.Perm (insertDesc c l) (c :: l) := by
  induction l with
  | nil => rfl
  | cons d ds ih =>
      by_cases h : d.score < c.score
      · simp [insertDesc, h]
      · simp only [insertDesc, if_neg h]
        exact (ih.cons d).trans (List.Perm.swap c d ds)

/-- The embedded sort permutes its input. -/
theorem jsSortDesc_perm (l : List ScoredCandidate) :
    List.Perm (jsSortDesc l) l := by
  induction l with
  | nil => rfl
  | cons c cs ih => exact (insertDesc_perm c (jsSortDesc cs)).trans (ih.cons c)

/-- Descending order is preserved by insertion. -/
theorem insertDesc_sorted (c : ScoredCandidate) (l : List ScoredCandidate)
    (hl : l.Pairwise (fun a b => b.score ≤ a.score)) :
    (insertDesc c l).Pairwise (fun a b => b.score ≤ a.score) := by
  induction l with
  | nil => simp [insertDesc]
  | cons d ds ih =>
      rcases List.pairwise_cons.1 hl with ⟨hd, hds⟩
      by_cases h : d.score < c.score
      · simp only [insertDesc, if_pos h]
        refine List.pairwise_cons.2 ⟨?_, hl⟩
        intro a ha
        rcases List.mem_cons.1 ha with rfl | ha
        · omega
        · have := hd a ha
          omega
      · simp only [insertDesc, if_neg h]
        refine List.pairwise_cons.2 ⟨?_, ih hds⟩
        intro a ha
        have := (insertDesc_perm c ds).mem_iff.1 ha
        rcases List.mem_cons.1 this with rfl | hmem
        · omega
        · exact hd a hmem

/-- The embedded sort produces a descending list, as the JavaScript
comparator requires. -/
theorem jsSortDesc_sorted (l : List ScoredCandidate) :
    (jsSortDesc l).Pairwise (fun a b => b.score ≤ a.score) := by
  induction l with
  | nil => simp [jsSortDesc]
  | cons c cs ih => exact insertDesc_sorted c _ ih

/-! ## Claim C10 — digit-leading product names always score -/

/-- A case-folded name that begins with a digit has an empty base segment:
its very first character is matched by the split class `[A-Z0-9]`. -/
theorem splitHead_of_digit_head (s : String)
    (hd : (match s.toList with
            | c :: _ => jsIsDigit c
            | [] => false) = true) :
    jsSplitHead s = "" := by
  unfold jsSplitHead
  cases hs : s.toList with
  | nil => rw [hs] at hd; simp at hd
  | cons c cs =>
      rw [hs] at hd
      have hm : isVariantMarker c = true := by
        simp only [jsIsDigit, decide_eq_true_eq] at hd
        simp [isVariantMarker, hd]
      simp [List.takeWhile_cons, hm]

/-- Claim C10: a product whose case-folded name begins with a digit receives
at least the 10-point base-segment bonus on every transcript, and therefore
appears among the suggestions of any scoring call whose positive-score pool
leaves a free slot under the cap of five. -/
theorem digit_named_product_always_suggested (t : String) (p : Product)
    (ps : List Product) (hp : p ∈ ps)
    (hd : (match (jsToLower p.name).toList with
            | c :: _ => jsIsDigit c
            | [] => false) = true)
    (hfree : ((ps.map
          (fun q => ScoredCandidate.mk q (productScore (jsToLower t) q))).filter
        (fun c => decide (0 < c.score))).length ≤ 5) :
    10 ≤ productScore (jsToLower t) p ∧
      p.id ∈ (matchProductLocally t ps).suggestions := by
  have hsplit : jsSplitHead (jsToLower p.name) = "" :=
    splitHead_of_digit_head _ hd
  have hinc : jsIncludes (jsToLower t) (jsSplitHead (jsToLower p.name)) = true := by
    rw [hsplit]; exact jsIncludes_empty _
  have hscore : 10 ≤ productScore (jsToLower t) p := by
    simp only [productScore]
    rw [if_pos (Or.inr hinc)]
    exact Nat.le_add_left 10 _
  refine ⟨hscore, ?_⟩
  simp only [matchProductLocally]
  set cands := ps.map
    (fun q => ScoredCandidate.mk q (productScore (jsToLower t) q)) with hcands
  have hmem1 : ScoredCandidate.mk p (productScore (jsToLower t) p) ∈ cands :=
    List.mem_map_of_mem _ hp
  have hmem2 : ScoredCandidate.mk p (productScore (jsToLower t) p) ∈
      jsSortDesc cands :=
    (jsSortDesc_perm cands).mem_iff.2 hmem1
  have hpred : (fun c : ScoredCandidate => decide (0 < c.score))
      (ScoredCandidate.mk p (productScore (jsToLower t) p)) = true := by
    simp only [decide_eq_true_eq]
    omega
  have hmem3 : ScoredCandidate.mk p (productScore (jsToLower t) p) ∈
      (jsSortDesc cands).filter (fun c => decide (0 < c.score)) :=
    List.mem_filter.2 ⟨hmem2, hpred⟩
  have hlen : ((jsSortDesc cands).filter
      (fun c => decide (0 < c.score))).length ≤ 5 := by
    have := ((jsSortDesc_perm cands).filter
      (fun c => decide (0 < c.score))).length_eq
    omega
  rw [List.take_of_length_le hlen]
  exact List.mem_map_of_mem _ hmem3

/-- Witness for `digit_named_product_always_suggested`: the product 3号电池
is suggested even for the unrelated transcript 完全无关. -/
theorem digit_named_product_always_suggested_witness :
    10 ≤ productScore (jsToLower "完全无关")
        (Product.mk "b1" "3号电池" "电子" "个" 1) ∧
      "b1" ∈ (matchProductLocally "完全无关"
          [Product.mk "b1" "3号电池" "电子" "个" 1]).suggestions :=
  digit_named_product_always_suggested "完全无关"
    (Product.mk "b1" "3号电池" "电子" "个" 1)
    [Product.mk "b1" "3号电池" "电子" "个" 1]
    (by decide) (by decide) (by decide)

/-! ## Claim C6 — the local scoring formula -/

/-- Score formula exactly as the claim states it (for comparison with the
embedded code): +100 when the identifier occurs, +50 when the full name
occurs, +5 when the first two characters of the name occur (no length
condition), +10 when the name is a prefix of the transcript or the transcript
contains the name's base segment. -/
def specScoreClaimed (transcript : String) (p : Product) : Nat :=
  let t := jsToLower transcript
  let pName := jsToLower p.name
  let pId := jsToLower p.id
  (if pId.toList <:+: t.toList then 100 else 0) +
    (if pName.toList <:+: t.toList then 50 else 0) +
    (if (jsSubstring pName 0 2).toList <:+: t.toList then 5 else 0) +
    (if pName.toList <+: t.toList ∨ (jsSplitHead pName).toList <:+: t.toList
      then 10 else 0)

/-- Score formula as the code actually computes it: the +5 bonus additionally
requires the folded name to be longer than two characters, and the +10 bonus
fires when the transcript is a prefix of the name (not the other way around)
or the transcript contains the base segment of the folded name. -/
def specScoreAmended (transcript : String) (p : Product) : Nat :=
  let t := jsToLower transcript
  let pName := jsToLower p.name
  let pId := jsToLower p.id
  (if pId.toList <:+: t.toList then 100 else 0) +
    (if pName.toList <:+: t.toList then 50 else 0) +
    (if 2 < pName.length ∧ (jsSubstring pName 0 2).toList <:+: t.toList
      then 5 else 0) +
    (if t.toList <+: pName.toList ∨ (jsSplitHead pName).toList <:+: t.toList
      then 10 else 0)

/-- Counterexample for claim C6 as frozen, at the product
`id = "z9", name = "ab"`: on the transcript `"a"` the claimed formula yields
0 but the code awards 10 (the code tests `name.startsWith(transcript)`, the
reverse of the claimed prefix direction); on the transcript `"abx"` the
claimed formula yields 65 but the code awards 60 (the code's +5 bonus
requires `name.length > 2`, which the claim omits). -/
theorem local_score_formula_cex :
    specScoreClaimed "a" (Product.mk "z9" "ab" "c" "个" 1) = 0 ∧
      productScore (jsToLower "a") (Product.mk "z9" "ab" "c" "个" 1) = 10 ∧
      specScoreClaimed "abx" (Product.mk "z9" "ab" "c" "个" 1) = 65 ∧
      productScore (jsToLower "abx") (Product.mk "z9" "ab" "c" "个" 1) = 60 := by
  refine ⟨?_, by decide, ?_, by decide⟩ <;> decide

/-- Claim C6 (amended): for every product and transcript, the additive score
computed inside `matchProductLocally` is exactly +100 when the folded
identifier occurs in the folded transcript, +50 when the folded full name
occurs, +5 when the folded name is longer than two characters and its first
two characters occur, and +10 when the transcript is a prefix of the folded
name or the transcript contains the segment of the folded name before its
first variant/size marker (an ASCII capital or digit). -/
theorem local_score_formula_amended (t : String) (p : Product) :
    productScore (jsToLower t) p = specScoreAmended t p := by
  simp only [productScore, specScoreAmended, jsIncludes_iff, jsStartsWith_iff,
    String.toList]
  by_cases h1 : (jsToLower p.id).data <:+: (jsToLower t).data <;>
    by_cases h2 : (jsToLower p.name).data <:+: (jsToLower t).data <;>
      by_cases h3 : 2 < (jsToLower p.name).length ∧
        (jsSubstring (jsToLower p.name) 0 2).data <:+: (jsToLower t).data <;>
        by_cases h4 : (jsToLower t).data <+: (jsToLower p.name).data ∨
          (jsSplitHead (jsToLower p.name)).data <:+: (jsToLower t).data <;>
          simp [h1, h2, h3, h4]

/-! ## Claim C7 — quantity extraction order -/

/-- Number-word value readable at the start of a character list (used to
formalise the claim's transcript-position scan). -/
def numberWordAt (cs : List Char) : Option Nat :=
  (CHINESE_NUMBERS.find? (fun kv => kv.1.toList.isPrefixOf cs)).map (·.2)

/-- Earliest number word by transcript position: scan positions left to
right and take the value of the first number word that starts there. -/
def earliestNumberWord : List Char → Option Nat
  | [] => none
  | c :: cs =>
      match numberWordAt (c :: cs) with
      | some v => some v
      | none => earliestNumberWord cs

/-- Quantity extraction exactly as the claim states it: a literal digit scan
first, else the number word whose occurrence in the transcript comes first
("the first occurrence in the transcript wins"). -/
def specQtyFirstOccurrence (text : String) : Option Nat :=
  match firstDigitRun text with
  | some run => some (digitsVal run)
  | none => earliestNumberWord text.toList

/-- Dictionary-order scan over the number-word vocabulary: the first entry
(in the fixed order 一, 二, 两, 三, 四, 五, 六, 七, 八, 九, 十) occurring
anywhere in the text wins. -/
def scanVocabOrder : List (String × Nat) → String → Option Nat
  | [], _ => none
  | kv :: rest, t =>
      if jsIncludes t kv.1 then some kv.2 else scanVocabOrder rest t

/-- Quantity extraction as the code actually behaves: a literal digit scan
first, else the dictionary-order scan of the vocabulary. -/
def specQtyAmended (text : String) : Option Nat :=
  match firstDigitRun text with
  | some run => some (digitsVal run)
  | none => scanVocabOrder CHINESE_NUMBERS text

/-- Counterexample for claim C7 as frozen: in the transcript 三二 the word
三 (= 3) occurs first, so the claimed transcript-order rule yields 3, but
`extractQuantity` iterates the vocabulary in dictionary order, finds 二
(= 2) earlier in that order, and yields 2. -/
theorem quantity_vocab_order_cex :
    extractQuantity "三二" = some 2 ∧
      specQtyFirstOccurrence "三二" = some 3 ∧
      extractQuantity "三二" ≠ specQtyFirstOccurrence "三二" := by
  refine ⟨by decide, by decide, by decide⟩

/-- Dictionary-order characterisation of the vocabulary fallback of
`extractQuantity`. -/
theorem extractQuantity_find_eq_scan (L : List (String × Nat)) (t : String) :
    (L.find? (fun kv => jsIncludes t kv.1)).map (·.2) = scanVocabOrder L t := by
  induction L with
  | nil => rfl
  | cons kv rest ih =>
      by_cases h : jsIncludes t kv.1 = true
      · simp [List.find?_cons, h, scanVocabOrder]
      · simp only [List.find?_cons]
        rw [Bool.of_not_eq_true h]
        simpa [scanVocabOrder, h] using ih

/-- Claim C7 (amended): quantity extraction first tries a literal digit
scan; when no digit is present the number-word vocabulary — which covers
exactly the values 1 through 10 — is scanned in its fixed dictionary order
(一, 二, 两, 三, 四, 五, 六, 七, 八, 九, 十) and the first vocabulary entry
contained anywhere in the transcript wins; when neither is found the
quantity is absent. -/
theorem quantity_extraction_amended :
    (∀ t, extractQuantity t = specQtyAmended t) ∧
      (∀ n, (∃ kv, kv ∈ CHINESE_NUMBERS ∧ kv.2 = n) ↔ 1 ≤ n ∧ n ≤ 10) := by
  constructor
  · intro t
    unfold extractQuantity specQtyAmended
    cases firstDigitRun t with
    | some run => rfl
    | none => exact extractQuantity_find_eq_scan CHINESE_NUMBERS t
  · intro n
    constructor
    · rintro ⟨kv, hkv, rfl⟩
      fin_cases hkv <;> simp
    · rintro ⟨h1, h10⟩
      interval_cases n
      · exact ⟨("一", 1), by simp [CHINESE_NUMBERS], rfl⟩
      · exact ⟨("二", 2), by simp [CHINESE_NUMBERS], rfl⟩
      · exact ⟨("三", 3), by simp [CHINESE_NUMBERS], rfl⟩
      · exact ⟨("四", 4), by simp [CHINESE_NUMBERS], rfl⟩
      · exact ⟨("五", 5), by simp [CHINESE_NUMBERS], rfl⟩
      · exact ⟨("六", 6), by simp [CHINESE_NUMBERS], rfl⟩
      · exact ⟨("七", 7), by simp [CHINESE_NUMBERS], rfl⟩
      · exact ⟨("八", 8), by simp [CHINESE_NUMBERS], rfl⟩
      · exact ⟨("九", 9), by simp [CHINESE_NUMBERS], rfl⟩
      · exact ⟨("十", 10), by simp [CHINESE_NUMBERS], rfl⟩

/-! ## Claim C4 — the resolution step is total and degrades to the full
catalog -/

/-- Well-formedness of any `processMatchResult` outcome, for starting states
whose candidate list already comes from the catalog. -/
theorem processMatchResult_wellformed (ps : List Product) (m : MatchResult)
    (st : ModalState) (hst : ∀ p ∈ st.candidates, p ∈ ps) :
    ModalWellFormed ps (processMatchResult ps m st) := by
  unfold processMatchResult ModalWellFormed
  cases htr : truthyId m.matchedProductId with
  | some pid =>
      cases hfind : ps.find? (fun p => p.id = pid) with
      | some product =>
          have hmem : product ∈ ps := List.mem_of_find?_eq_some hfind
          cases m.detectedQuantity with
          | some q =>
              by_cases hq : q = 0 <;>
                simp [hq, hfind, hmem] <;>
                exact hst
          | none =>
              simp [hfind, hmem]
              exact hst
      | none =>
          by_cases hs : m.suggestions ≠ [] <;>
            cases m.detectedQuantity with
            | some q =>
                by_cases hq : q = 0 <;>
                  simp [hfind, hs, hq] <;>
                  first
                    | exact hst
                    | (intro p hp; exact hp)
                    | (intro p hp h2; exact hp)
            | none =>
                simp [hfind, hs] <;>
                first
                  | exact hst
                  | (intro p hp; exact hp)
                  | (intro p hp h2; exact hp)
  | none =>
      by_cases hs : m.suggestions ≠ [] <;>
        cases m.detectedQuantity with
        | some q =>
            by_cases hq : q = 0 <;>
              simp [hs, hq] <;>
              first
                | exact hst
                | (intro p hp; exact hp)
                | (intro p hp h2; exact hp)
        | none =>
            simp [hs] <;>
            first
              | exact hst
              | (intro p hp; exact hp)
              | (intro p hp h2; exact hp)

/-- A result with no match and no suggestions degrades to the whole
catalog. -/
theorem processMatchResult_degrades (ps : List Product) (m : MatchResult)
    (st : ModalState) (hm : m.matchedProductId = none)
    (hs : m.suggestions = []) :
    processMatchResult ps m st =
      { st with candidates := ps, step := ModalStep.SELECT_PRODUCT } := by
  unfold processMatchResult
  simp [hm, hs, truthyId]

/-- Claim C4: for every connectivity state, remote outcome, transcript and
catalog (both possibly empty), the resolution step yields a well-formed
modal outcome — it never fails — and when the match it consumed carries no
match and no suggestions, the candidate list degrades to the entire
catalog. -/
theorem resolve_total_wellformed_and_degrades (online : Bool)
    (remote : Except RemoteError MatchResult) (t : String)
    (ps : List Product) :
    ModalWellFormed ps (handleTranscript online remote t ps initialModalState) ∧
      ((usedMatch online remote t ps).matchedProductId = none →
        (usedMatch online remote t ps).suggestions = [] →
        (handleTranscript online remote t ps initialModalState).candidates = ps ∧
          (handleTranscript online remote t ps initialModalState).step =
            ModalStep.SELECT_PRODUCT) := by
  have hempty : ∀ st : ModalState, st.candidates = [] → ∀ p ∈ st.candidates, p ∈ ps := by
    intro st h p hp
    rw [h] at hp
    cases hp
  cases online with
  | true =>
      cases remote with
      | ok m =>
          refine ⟨processMatchResult_wellformed ps m _ (hempty _ rfl), ?_⟩
          intro hm hs
          rw [show handleTranscript true (Except.ok m) t ps initialModalState =
            processMatchResult ps m
              { initialModalState with transcript := t, usedOfflineMatch := false }
            from rfl, processMatchResult_degrades ps m _ hm hs]
          exact ⟨rfl, rfl⟩
      | error e =>
          refine ⟨processMatchResult_wellformed ps _ _ (hempty _ rfl), ?_⟩
          intro hm hs
          simp only [usedMatch] at hm hs
          rw [show handleTranscript true (Except.error e) t ps initialModalState =
            processMatchResult ps (matchProductLocally t ps)
              { initialModalState with transcript := t, usedOfflineMatch := true }
            from rfl, processMatchResult_degrades ps _ _ hm hs]
          exact ⟨rfl, rfl⟩
  | false =>
      refine ⟨processMatchResult_wellformed ps _ _ (hempty _ rfl), ?_⟩
      intro hm hs
      simp only [usedMatch] at hm hs
      rw [show handleTranscript false remote t ps initialModalState =
        processMatchResult ps (matchProductLocally t ps)
          { initialModalState with transcript := t, usedOfflineMatch := true }
        from rfl, processMatchResult_degrades ps _ _ hm hs]
      exact ⟨rfl, rfl⟩

/-- Witness for `resolve_total_wellformed_and_degrades`: offline, the
transcript `"xyz"` matches nothing in a one-item catalog, and the resolver
presents the whole catalog. -/
theorem resolve_total_wellformed_and_degrades_witness :
    (handleTranscript false (Except.ok emptyMatchResult) "xyz"
        [Product.mk "hx1" "护膝" "护具" "个" 1] initialModalState).candidates =
      [Product.mk "hx1" "护膝" "护具" "个" 1] ∧
      (handleTranscript false (Except.ok emptyMatchResult) "xyz"
          [Product.mk "hx1" "护膝" "护具" "个" 1] initialModalState).step =
        ModalStep.SELECT_PRODUCT :=
  (resolve_total_wellformed_and_degrades false (Except.ok emptyMatchResult)
    "xyz" [Product.mk "hx1" "护膝" "护具" "个" 1]).2 (by decide) (by decide)

/-! ## Claim C8 — remote auth failures and the fallback -/

/-- Counterexample for claim C8 as frozen: the ModelScope adapter reports an
HTTP 401 differently from a network failure, yet the caller-visible modal
state after resolution is identical for the two outcomes — the resolver
surfaces no auth-specific signal, only the same generic offline-fallback
flag. -/
theorem auth_error_not_distinguished_cex :
    modelScopeMatch "护膝" [Product.mk "hx1" "护膝" "护具" "个" 1]
        (RemoteOutcome.httpError 401) ≠
      modelScopeMatch "护膝" [Product.mk "hx1" "护膝" "护具" "个" 1]
        RemoteOutcome.netFail ∧
      handleTranscript true
          (modelScopeMatch "护膝" [Product.mk "hx1" "护膝" "护具" "个" 1]
            (RemoteOutcome.httpError 401))
          "护膝" [Product.mk "hx1" "护膝" "护具" "个" 1] initialModalState =
        handleTranscript true
          (modelScopeMatch "护膝" [Product.mk "hx1" "护膝" "护具" "个" 1]
            RemoteOutcome.netFail)
          "护膝" [Product.mk "hx1" "护膝" "护具" "个" 1] initialModalState := by
  constructor
  · intro h
    have : RemoteError.auth = RemoteError.network := by
      have h401 : modelScopeMatch "护膝" [Product.mk "hx1" "护膝" "护具" "个" 1]
          (RemoteOutcome.httpError 401) = Except.error RemoteError.auth := by rfl
      have hnet : modelScopeMatch "护膝" [Product.mk "hx1" "护膝" "护具" "个" 1]
          RemoteOutcome.netFail = Except.error RemoteError.network := by rfl
      rw [h401, hnet] at h
      exact Except.error.inj h
    cases this
  · rfl

/-- Claim C8 (amended): on any thrown remote failure — the 401 auth error
included — the resolver uses the local scorer's result for that call and
marks the outcome as offline-matched, and the caller-visible state is the
same for every failure category: no distinct auth-error signal is
surfaced. -/
theorem remote_failure_fallback_amended (t : String) (ps : List Product)
    (st : ModalState) (e e' : RemoteError) :
    handleTranscript true (Except.error e) t ps st =
        processMatchResult ps (matchProductLocally t ps)
          { st with transcript := t, usedOfflineMatch := true } ∧
      handleTranscript true (Except.error e) t ps st =
        handleTranscript true (Except.error e') t ps st := by
  exact ⟨rfl, rfl⟩

/-! ## Claim C9 — error propagation by the remote adapters -/

/-- Counterexample for claim C9 as frozen: the Gemini adapter — the remote
matcher the modal actually imports — absorbs a network failure, a 401 and an
unparseable body alike into the success-shaped empty `MatchResult` instead
of propagating a categorized error. -/
theorem gemini_swallows_failure_cex :
    geminiMatch "护膝" [Product.mk "hx1" "护膝" "护具" "个" 1]
        RemoteOutcome.netFail = Except.ok emptyMatchResult ∧
      geminiMatch "护膝" [Product.mk "hx1" "护膝" "护具" "个" 1]
          (RemoteOutcome.httpError 401) = Except.ok emptyMatchResult ∧
      geminiMatch "护膝" [Product.mk "hx1" "护膝" "护具" "个" 1]
          (RemoteOutcome.ok none) = Except.ok emptyMatchResult := by
  exact ⟨rfl, rfl, rfl⟩

/-- Claim C9 (amended): for a non-blank transcript, the ModelScope adapter
propagates every non-success as a categorized error — network failures as
`network`, HTTP 401 as `auth`, other HTTP statuses as `apiStatus`, an
unparseable body as `parse` — and returns a parsed reply unchanged; the
Gemini adapter instead swallows failures into an empty success-shaped
result. -/
theorem modelscope_categorized_errors (t : String) (ps : List Product)
    (h : jsTrim t ≠ "") :
    modelScopeMatch t ps RemoteOutcome.netFail =
        Except.error RemoteError.network ∧
      modelScopeMatch t ps (RemoteOutcome.httpError 401) =
        Except.error RemoteError.auth ∧
      (∀ c, c ≠ 401 → modelScopeMatch t ps (RemoteOutcome.httpError c) =
        Except.error (RemoteError.apiStatus c)) ∧
      modelScopeMatch t ps (RemoteOutcome.ok none) =
        Except.error RemoteError.parse ∧
      (∀ r, modelScopeMatch t ps (RemoteOutcome.ok (some r)) = Except.ok r) := by
  unfold modelScopeMatch
  refine ⟨?_, ?_, ?_, ?_, ?_⟩
  · simp [h]
  · simp [h]
  · intro c hc
    simp [h, hc]
  · simp [h]
  · intro r
    simp [h]

/-- Witness for `modelscope_categorized_errors` at the transcript 护膝. -/
theorem modelscope_categorized_errors_witness :
    modelScopeMatch "护膝" [] RemoteOutcome.netFail =
        Except.error RemoteError.network ∧
      modelScopeMatch "护膝" [] (RemoteOutcome.httpError 401) =
        Except.error RemoteError.auth ∧
      (∀ c, c ≠ 401 → modelScopeMatch "护膝" [] (RemoteOutcome.httpError c) =
        Except.error (RemoteError.apiStatus c)) ∧
      modelScopeMatch "护膝" [] (RemoteOutcome.ok none) =
        Except.error RemoteError.parse ∧
      (∀ r, modelScopeMatch "护膝" [] (RemoteOutcome.ok (some r)) =
        Except.ok r) :=
  modelscope_categorized_errors "护膝" [] (by decide)

/-! ## Claim C3 — manual stop suppresses the auto-restart -/

/-- Claim C3: a stop issued while the session is listening sets the
manual-stop flag, and the engine-end handler that follows takes the
finalization branch — no restart is scheduled, the session stays inactive,
and the trimmed total text is emitted. -/
theorem stop_suppresses_restart (s : SessionState) (t1 t2 : Nat)
    (h : s.sessionActive = true) :
    (step s t1 Ev.stopClick).manuallyStopped = true ∧
      (step (step s t1 Ev.stopClick) t2 Ev.engineEnd).restartAt = none ∧
      (step (step s t1 Ev.stopClick) t2 Ev.engineEnd).sessionActive = false ∧
      (step (step s t1 Ev.stopClick) t2 Ev.engineEnd).listening = false ∧
      step (step s t1 Ev.stopClick) t2 Ev.engineEnd =
        finalizeSession (step s t1 Ev.stopClick) ∧
      (step (step s t1 Ev.stopClick) t2 Ev.engineEnd).emitted =
        (if jsTrim (s.accumulatedText ++ s.currentChunkText) = ""
          then s.emitted
          else some (jsTrim (s.accumulatedText ++ s.currentChunkText))) := by
  have h1 : step s t1 Ev.stopClick =
      { s with
        manuallyStopped := true
        deadlineAt := none
        restartAt := none
        sessionActive := false } := rfl
  have h2 : step (step s t1 Ev.stopClick) t2 Ev.engineEnd =
      finalizeSession (step s t1 Ev.stopClick) := by
    rw [h1]
    simp [step]
  refine ⟨by rw [h1], ?_, ?_, ?_, h2, ?_⟩ <;>
    rw [h2] <;> simp [finalizeSession, h1]

/-- Witness for `stop_suppresses_restart`: stopping a mid-session state with
committed text 你好 and in-flight chunk 世界 finalizes to 你好世界 with no
restart scheduled. -/
theorem stop_suppresses_restart_witness :
    (step { startState 15000 with
        accumulatedText := "你好", currentChunkText := "世界" }
        7000 Ev.stopClick).manuallyStopped = true ∧
      (step (step { startState 15000 with
          accumulatedText := "你好", currentChunkText := "世界" }
          7000 Ev.stopClick) 7001 Ev.engineEnd).restartAt = none ∧
      (step (step { startState 15000 with
          accumulatedText := "你好", currentChunkText := "世界" }
          7000 Ev.stopClick) 7001 Ev.engineEnd).sessionActive = false ∧
      (step (step { startState 15000 with
          accumulatedText := "你好", currentChunkText := "世界" }
          7000 Ev.stopClick) 7001 Ev.engineEnd).listening = false ∧
      step (step { startState 15000 with
          accumulatedText := "你好", currentChunkText := "世界" }
          7000 Ev.stopClick) 7001 Ev.engineEnd =
        finalizeSession (step { startState 15000 with
          accumulatedText := "你好", currentChunkText := "世界" }
          7000 Ev.stopClick) ∧
      (step (step { startState 15000 with
          accumulatedText := "你好", currentChunkText := "世界" }
          7000 Ev.stopClick) 7001 Ev.engineEnd).emitted =
        (if jsTrim ((("你好" : String)) ++ "世界") = ""
          then (none : Option String)
          else some (jsTrim ((("你好" : String)) ++ "世界"))) :=
  stop_suppresses_restart
    { startState 15000 with accumulatedText := "你好", currentChunkText := "世界" }
    7000 7001 (by decide)

/-! ## Claim C1 — the final transcript is the trimmed concatenation of the
sub-attempts' last cumulative reports -/

/-- Running a trace in two stages. -/
theorem runT_append (s : SessionState) (es fs : List (Nat × Ev)) :
    runT s (es ++ fs) = runT (runT s es) fs :=
  List.foldl_append _ _ _ _

/-- A block of `onresult` reports only overwrites the in-flight chunk, which
ends as the last report (or stays put when there is none). -/
theorem runT_results (sub : List String) (s : SessionState) :
    runT s (sub.map (fun r => (0, Ev.result r))) =
      { s with currentChunkText := sub.getLastD s.currentChunkText } := by
  induction sub generalizing s with
  | nil => rfl
  | cons r rs ih =>
      simp only [List.map_cons, runT, List.foldl_cons]
      have : step s 0 (Ev.result r) = { s with currentChunkText := r } := rfl
      rw [show List.foldl (fun st te => step st te.1 te.2)
          (step s 0 (Ev.result r)) (rs.map (fun r => (0, Ev.result r))) =
          runT { s with currentChunkText := r }
            (rs.map (fun r => (0, Ev.result r))) from rfl, ih]
      rw [List.getLastD_cons]

/-- Core induction for claim C1: from any active, not-yet-stopped state with
an empty in-flight chunk, running the trace of a list of sub-attempts emits
the trim of the accumulated text extended by each sub-attempt's last
report. -/
theorem run_mkTrace (subs : List (List String)) (s : SessionState)
    (ha : s.sessionActive = true) (hm : s.manuallyStopped = false)
    (hc : s.currentChunkText = "") :
    (runT s (mkTrace subs)).emitted =
      (if jsTrim (subs.foldl (fun acc sub => acc ++ lastStr sub)
          s.accumulatedText) = ""
        then s.emitted
        else some (jsTrim (subs.foldl (fun acc sub => acc ++ lastStr sub)
          s.accumulatedText))) := by
  induction subs generalizing s with
  | nil =>
      show (step (step s 0 Ev.stopClick) 0 Ev.engineEnd).emitted = _
      have h1 : step s 0 Ev.stopClick =
          { s with
            manuallyStopped := true
            deadlineAt := none
            restartAt := none
            sessionActive := false } := rfl
      have h2 : step (step s 0 Ev.stopClick) 0 Ev.engineEnd =
          finalizeSession (step s 0 Ev.stopClick) := by
        rw [h1]
        simp [step]
      rw [h2, h1]
      simp [finalizeSession, hc, List.foldl_nil, String.append_empty]
  | cons sub rest ih =>
      cases rest with
      | nil =>
          show (runT s (sub.map (fun r => (0, Ev.result r)) ++
            [(0, Ev.stopClick), (0, Ev.engineEnd)])).emitted = _
          rw [runT_append, runT_results]
          set s1 : SessionState :=
            { s with currentChunkText := sub.getLastD s.currentChunkText }
          have h1 : step s1 0 Ev.stopClick =
              { s1 with
                manuallyStopped := true
                deadlineAt := none
                restartAt := none
                sessionActive := false } := rfl
          have h2 : step (step s1 0 Ev.stopClick) 0 Ev.engineEnd =
              finalizeSession (step s1 0 Ev.stopClick) := by
            rw [h1]
            simp [step]
          show (step (step s1 0 Ev.stopClick) 0 Ev.engineEnd).emitted = _
          rw [h2, h1]
          simp only [finalizeSession]
          simp [s1, hc, lastStr]
      | cons sub2 rest2 =>
          show (runT s (sub.map (fun r => (0, Ev.result r)) ++
            (0, Ev.engineEnd) :: mkTrace (sub2 :: rest2))).emitted = _
          rw [runT_append, runT_results]
          set s1 : SessionState :=
            { s with currentChunkText := sub.getLastD s.currentChunkText }
          have hs1a : s1.sessionActive = true := ha
          have hs1m : s1.manuallyStopped = false := hm
          have h3 : step s1 0 Ev.engineEnd =
              { s1 with
                accumulatedText := s1.accumulatedText ++ s1.currentChunkText
                currentChunkText := ""
                restartAt := some (0 + 100) } := by
            show (if s1.sessionActive ∧ ¬s1.manuallyStopped then _ else _) = _
            rw [if_pos]
            rw [hs1a, hs1m]
            exact ⟨rfl, Bool.false_ne_true⟩
          show (runT (step s1 0 Ev.engineEnd) (mkTrace (sub2 :: rest2))).emitted = _
          rw [h3, ih { s1 with
              accumulatedText := s1.accumulatedText ++ s1.currentChunkText
              currentChunkText := ""
              restartAt := some (0 + 100) } hs1a hs1m rfl]
          simp [s1, hc, lastStr]

/-- Claim C1: for every sequence of engine sub-attempts ending within the
deadline (each one committed by the auto-restart handler, the last by the
stop), the transcript emitted at finalization is exactly the trimmed
concatenation, in order, of each sub-attempt's last reported cumulative
text — emitted once when non-empty, not at all when empty. -/
theorem session_transcript_is_trimmed_concat (dur : Nat)
    (subs : List (List String)) :
    (runT (startState dur) (mkTrace subs)).emitted =
      (if jsTrim (concatLasts subs) = ""
        then none
        else some (jsTrim (concatLasts subs))) := by
  rw [run_mkTrace subs (startState dur) rfl rfl rfl]
  rfl

/-! ## Claim C2 — the hard deadline bounds the session -/

/-- Session invariant: while the session is active, the hard deadline timer
armed by `startLogic` stays armed with its original expiry — neither the
auto-restart branch of `onend` nor any other handler clears or re-arms
it without also deactivating the session. -/
def DeadlineInv (d : Nat) (s : SessionState) : Prop :=
  s.sessionActive = true → s.deadlineAt = some d

/-- Every handler preserves the deadline invariant. -/
theorem deadlineInv_step (d : Nat) (s : SessionState) (t : Nat) (e : Ev)
    (hinv : DeadlineInv d s) : DeadlineInv d (step s t e) := by
  cases e with
  | result txt => exact hinv
  | engineEnd =>
      by_cases hcond : s.sessionActive = true ∧ ¬s.manuallyStopped = true
      · intro _
        simp only [step, if_pos hcond]
        exact hinv hcond.1
      · intro hact
        simp only [step, if_neg hcond] at hact ⊢
        exact hinv (by simpa [finalizeSession] using hact)
  | stopClick =>
      intro hact
      simp [step, handleStopClick, stopLogic] at hact
  | deadlineFire =>
      intro hact
      simp [step, handleStopClick, stopLogic] at hact
  | restartFire => exact hinv

/-- In a valid trace from a state satisfying the invariant, any event that
arrives while the session is still active is timed no later than the armed
deadline. -/
theorem valid_active_event_le (d : Nat) (p : List (Nat × Ev))
    (s : SessionState) (now t : Nat) (e : Ev) (q : List (Nat × Ev))
    (hv : validB s now (p ++ (t, e) :: q) = true) (hinv : DeadlineInv d s)
    (hact : (runT s p).sessionActive = true) : t ≤ d := by
  induction p generalizing s now with
  | nil =>
      simp only [List.nil_append, validB, Bool.and_eq_true] at hv
      have hdl := hinv hact
      rcases hv with ⟨⟨⟨_, hdead⟩, _⟩, _⟩
      rw [hdl] at hdead
      exact of_decide_eq_true hdead
  | cons te p' ih =>
      simp only [List.cons_append, validB, Bool.and_eq_true] at hv
      rcases hv with ⟨⟨⟨_, _⟩, _⟩, hv'⟩
      exact ih (step s te.1 te.2) te.1 hv'
        (deadlineInv_step d s te.1 te.2 hinv) hact

/-- Claim C2: the hard deadline timer armed at session start finalizes the
session at or before the configured duration, however many auto-restarts
occur: in every valid event trace, an event reached while the session is
still active is timed at most `dur`, and the deadline's own firing
immediately deactivates the session and disarms every timer. -/
theorem deadline_always_finalizes (dur : Nat) (es p q : List (Nat × Ev))
    (t : Nat) (e : Ev) (hsplit : es = p ++ (t, e) :: q)
    (hvalid : validB (startState dur) 0 es = true)
    (hactive : (runT (startState dur) p).sessionActive = true) :
    t ≤ dur ∧
      (step (runT (startState dur) p) t Ev.deadlineFire).sessionActive =
        false ∧
      (step (runT (startState dur) p) t Ev.deadlineFire).deadlineAt = none ∧
      (step (runT (startState dur) p) t Ev.deadlineFire).restartAt = none := by
  subst hsplit
  refine ⟨?_, rfl, rfl, rfl⟩
  have hinv : DeadlineInv (0 + dur) (startState dur) := fun _ => rfl
  have := valid_active_event_le (0 + dur) p (startState dur) 0 t e q hvalid
    hinv hactive
  omega

/-- Witness for `deadline_always_finalizes`: a valid trace with one engine
drop, its restart and a mid-session report, reaching the deadline firing at
exactly 15000 ms while still active. -/
theorem deadline_always_finalizes_witness :
    (15000 : Nat) ≤ 15000 ∧
      (step (runT (startState 15000)
          [(500, Ev.engineEnd), (600, Ev.restartFire), (3000, Ev.result "你好")])
          15000 Ev.deadlineFire).sessionActive = false ∧
      (step (runT (startState 15000)
          [(500, Ev.engineEnd), (600, Ev.restartFire), (3000, Ev.result "你好")])
          15000 Ev.deadlineFire).deadlineAt = none ∧
      (step (runT (startState 15000)
          [(500, Ev.engineEnd), (600, Ev.restartFire), (3000, Ev.result "你好")])
          15000 Ev.deadlineFire).restartAt = none :=
  deadline_always_finalizes 15000
    [(500, Ev.engineEnd), (600, Ev.restartFire), (3000, Ev.result "你好"),
      (15000, Ev.deadlineFire), (15000, Ev.engineEnd)]
    [(500, Ev.engineEnd), (600, Ev.restartFire), (3000, Ev.result "你好")]
    [(15000, Ev.engineEnd)] 15000 Ev.deadlineFire (by decide) (by decide)
    (by decide)
